import Mathlib

/-!
Verification of the pointer-input coordinate normalization hook
(`src/hooks/useMouseInput.ts`).

The embedding models the hook's two pure helpers (`getOffset`,
`mouseEventToCoords` / `parseMousePosition`) and the effect-driven
Input Session Tracker as an explicit state machine:

* Numbers are `Rat` (JavaScript number arithmetic on the values the
  claims concern is exact rational arithmetic; `Math.round` is modelled
  by `jsRound`).
* A `DomEnv` is a snapshot of every DOM property the hook reads during
  one synchronous computation (bounding boxes, scroll offsets, client
  edges).  All reads within one event dispatch see the same snapshot,
  matching single-threaded DOM semantics without intervening mutation.
* Elements and callback sets are identified by `Nat` ids (standing for
  JavaScript object references; id equality models `Object.is`, which is
  what React's state-update bail-out and effect-dependency comparison
  use).
* The tracker's React lifecycle is a step function on `TrackerState`:
  `setDomEl` / `setCallbacks` with a changed value re-run the effect
  (cleanup removes the previous run's listeners, then the body attaches
  five fresh listeners when both element and callbacks are present, with
  a fresh `lastPosition := null` local); a native pointer event fires
  every attached listener whose kind and element match, in attach order.
  Callback invocations are recorded as an `Output` trace.
-/

namespace MouseInput

/-- The `MouseCoords` record of the source: a pair of numbers. -/
structure MouseCoords where
  x : Rat
  y : Rat
deriving DecidableEq, Repr

/-- The `MousePosition` record of the source: a position plus a
nullable delta. -/
structure MousePosition where
  position : MouseCoords
  delta : Option MouseCoords
deriving DecidableEq, Repr

/-- The five pointer-event kinds handled by the hook. -/
inductive EventKind
  | move
  | down
  | up
  | enter
  | leave
deriving DecidableEq, Repr

/-- A `getBoundingClientRect` result restricted to the fields the source
reads (`box.top`, `box.left`). -/
structure Box where
  top : Rat
  left : Rat
deriving DecidableEq, Repr

/-- A raw DOM mouse event restricted to the fields the source reads. -/
structure RawEvent where
  clientX : Rat
  clientY : Rat
deriving DecidableEq, Repr

/-- Snapshot of the DOM properties read by `getOffset` and
`mouseEventToCoords`: per-element bounding boxes, the window/document
root/body scroll offsets, the root/body client edges, and
`window.scrollX` / `window.scrollY`. -/
structure DomEnv where
  boxOf : Nat → Box
  pageXOffset : Rat
  pageYOffset : Rat
  docScrollTop : Rat
  docScrollLeft : Rat
  bodyScrollTop : Rat
  bodyScrollLeft : Rat
  docClientTop : Rat
  docClientLeft : Rat
  bodyClientTop : Rat
  bodyClientLeft : Rat
  scrollX : Rat
  scrollY : Rat

/-- JavaScript `a || b` on numbers: `a` when truthy (nonzero), else `b`. -/
def jsOr (a b : Rat) : Rat := if a = 0 then b else a

/-- JavaScript `Math.round`: half-values round toward positive
infinity, i.e. `⌊q + 1/2⌋`. -/
def jsRound (q : Rat) : Int := ⌊q + 1 / 2⌋

/-- Result record of `getOffset`. -/
structure Offset where
  top : Int
  left : Int
deriving DecidableEq, Repr

/-- The source's `getOffset`: `(0,0)` for a missing element, otherwise
`Math.round(box.top + scrollTop - clientTop)` and likewise for `left`,
with the `||`-chains of the source for the scroll and client values. -/
def getOffset (env : DomEnv) (domEl : Option Nat) : Offset :=
  match domEl with
  | none => { top := 0, left := 0 }
  | some el =>
    let box := env.boxOf el
    let scrollTop := jsOr env.pageYOffset (jsOr env.docScrollTop env.bodyScrollTop)
    let scrollLeft := jsOr env.pageXOffset (jsOr env.docScrollLeft env.bodyScrollLeft)
    let clientTop := jsOr env.docClientTop (jsOr env.bodyClientTop 0)
    let clientLeft := jsOr env.docClientLeft (jsOr env.bodyClientLeft 0)
    let top := box.top + scrollTop - clientTop
    let left := box.left + scrollLeft - clientLeft
    { top := jsRound top, left := jsRound left }

/-- The source's `mouseEventToCoords`:
`{ x: e.clientX - offset.left + window.scrollX, y: e.clientY - offset.top + window.scrollY }`. -/
def mouseEventToCoords (env : DomEnv) (domEl : Option Nat) (e : RawEvent) : MouseCoords :=
  let offset := getOffset env domEl
  { x := e.clientX - (offset.left : Rat) + env.scrollX
    y := e.clientY - (offset.top : Rat) + env.scrollY }

/-- The source's `parseMousePosition`: current coordinates plus a delta
against the `mousedown` argument (the tracked last position), null when
that argument is null. -/
def parseMousePosition (env : DomEnv) (domEl : Option Nat) (e : RawEvent)
    (mousedown : Option MouseCoords) : MousePosition :=
  let current := mouseEventToCoords env domEl e
  let delta := match mousedown with
    | some m => some { x := current.x - m.x, y := current.y - m.y }
    | none => none
  { position := { x := current.x, y := current.y }, delta := delta }

/-- A native listener registration: the closure attached by one effect
run.  It captures the effect run's generation, the event kind it
handles, and the callback-set and element ids it closed over. -/
structure Listener where
  gen : Nat
  kind : EventKind
  cb : Nat
  el : Nat
deriving DecidableEq, Repr

/-- Tracker state: the two React state cells (`domEl`, `callbacks`), the
current effect run's `lastPosition` local, the set of attached native
listeners, and the current effect-run generation. -/
structure TrackerState where
  domEl : Option Nat
  cbs : Option Nat
  lastPosition : Option MouseCoords
  listeners : List Listener
  gen : Nat
deriving DecidableEq, Repr

/-- Initial tracker state: nothing bound, no listeners. -/
def initState : TrackerState :=
  { domEl := none, cbs := none, lastPosition := none, listeners := [], gen := 0 }

/-- The five kinds in the attach order of the source
(`mousemove`, `mousedown`, `mouseup`, `mouseenter`, `mouseleave`). -/
def allKinds : List EventKind := [.move, .down, .up, .enter, .leave]

/-- The five listeners one bound effect run attaches. -/
def goodListeners (g cb el : Nat) : List Listener :=
  allKinds.map (fun k => { gen := g, kind := k, cb := cb, el := el })

/-- Effect cleanup: the previous run's cleanup closure removes exactly
the listeners that run attached (those tagged with the current
generation); when the previous run attached none this is a no-op. -/
def cleanupStep (s : TrackerState) : TrackerState :=
  { s with listeners := s.listeners.filter (fun l => l.gen ≠ s.gen) }

/-- Effect body: a fresh run with a fresh `lastPosition` local; when
both callbacks and element are present it attaches one listener per
kind, otherwise the guard returns early and attaches nothing. -/
def attachStep (s : TrackerState) : TrackerState :=
  let s2 := { s with gen := s.gen + 1, lastPosition := none }
  match s2.cbs, s2.domEl with
  | some cb, some el => { s2 with listeners := s2.listeners ++ goodListeners s2.gen cb el }
  | _, _ => s2

/-- A full effect re-run: cleanup of the old run, then the new body. -/
def effectStep (s : TrackerState) : TrackerState :=
  attachStep (cleanupStep s)

/-- One recorded callback invocation: which callback set, which of its
five callbacks, and the sample it received. -/
structure Output where
  cb : Nat
  kind : EventKind
  sample : MousePosition
deriving DecidableEq, Repr

/-- One attached listener reacting to a native event: it fires when its
kind matches and it is attached to the event's target element, invoking
its captured callback with `parseMousePosition(e, lastPosition)` and
then updating `lastPosition` to `mouseEventToCoords(e)`. -/
def fireListener (k : EventKind) (target : Nat) (env : DomEnv) (e : RawEvent)
    (acc : Option MouseCoords × List Output) (l : Listener) :
    Option MouseCoords × List Output :=
  if l.kind = k ∧ l.el = target then
    (some (mouseEventToCoords env (some l.el) e),
     acc.2 ++ [{ cb := l.cb, kind := k, sample := parseMousePosition env (some l.el) e acc.1 }])
  else acc

/-- Native dispatch of one pointer event: every attached listener whose
kind and element match fires, in attach order. -/
def handleEvent (s : TrackerState) (k : EventKind) (target : Nat) (env : DomEnv)
    (e : RawEvent) : TrackerState × List Output :=
  let r := s.listeners.foldl (fireListener k target env e) (s.lastPosition, [])
  ({ s with lastPosition := r.1 }, r.2)

/-- External stimuli: the two setters of the hook's public API and a
native pointer event on some element. -/
inductive Action
  | setDomEl (el : Option Nat)
  | setCallbacks (c : Option Nat)
  | ptr (k : EventKind) (target : Nat) (env : DomEnv) (e : RawEvent)

/-- One transition of the tracker.  A setter whose argument equals the
current value is a no-op (React bails out on `Object.is`-equal state and
unchanged effect dependencies); a changed setter re-runs the effect. -/
def step (s : TrackerState) (a : Action) : TrackerState × List Output :=
  match a with
  | .setDomEl el => (if el = s.domEl then s else effectStep { s with domEl := el }, [])
  | .setCallbacks c => (if c = s.cbs then s else effectStep { s with cbs := c }, [])
  | .ptr k target env e => handleEvent s k target env e

/-- Run a list of actions, concatenating the callback-invocation
traces. -/
def run (s : TrackerState) : List Action → TrackerState × List Output
  | [] => (s, [])
  | a :: as =>
    let r1 := step s a
    let r2 := run r1.1 as
    (r2.1, r1.2 ++ r2.2)

/-- States reachable from the initial state by any action sequence. -/
inductive Reachable : TrackerState → Prop
  | start : Reachable initState
  | next {s : TrackerState} (a : Action) : Reachable s → Reachable (step s a).1

/-- Structural invariant: when bound, exactly the five current-generation
listeners for the bound callback set and element are attached; when
unbound, none are. -/
def goodState (s : TrackerState) : Prop :=
  match s.cbs, s.domEl with
  | some cb, some el => s.listeners = goodListeners s.gen cb el
  | _, _ => s.listeners = []

/-- A pointer stimulus: kind, target element, DOM snapshot and raw
event. -/
structure PtrAct where
  kind : EventKind
  target : Nat
  env : DomEnv
  ev : RawEvent

/-- The corresponding `Action` list. -/
def ptrActions (ps : List PtrAct) : List Action :=
  ps.map (fun p => .ptr p.kind p.target p.env p.ev)

/-- The element-relative position a pointer stimulus maps to for
element `el`. -/
def posOf (el : Nat) (p : PtrAct) : MouseCoords :=
  mouseEventToCoords p.env (some el) p.ev

/-- Componentwise coordinate difference, used to state the delta
claims. -/
def coordSub (a b : MouseCoords) : MouseCoords :=
  { x := a.x - b.x, y := a.y - b.y }

/-- The callback-invocation trace a bound session with callback set
`cb`, element `el` and tracked last position `q` produces on a pointer
trace: stimuli on other elements are ignored; each stimulus on `el`
yields one invocation whose delta is measured against the running last
position. -/
def expectedOuts (cb el : Nat) : Option MouseCoords → List PtrAct → List Output
  | _, [] => []
  | q, p :: ps =>
    if p.target = el then
      { cb := cb, kind := p.kind,
        sample := { position := posOf el p,
                    delta := q.map (fun m => coordSub (posOf el p) m) } }
        :: expectedOuts cb el (some (posOf el p)) ps
    else expectedOuts cb el q ps

/-- The tracked last position after a pointer trace. -/
def expectedLast (el : Nat) : Option MouseCoords → List PtrAct → Option MouseCoords
  | q, [] => q
  | q, p :: ps => expectedLast el (if p.target = el then some (posOf el p) else q) ps

/-- A trace of samples is a correct delta chain for starting position
`q`: the first delta is measured against `q` (absent when `q` is
absent), and every later delta equals the sample's position minus the
previous sample's position. -/
def deltaChain (q : Option MouseCoords) : List Output → Prop
  | [] => True
  | o :: os =>
    o.sample.delta = q.map (fun m => coordSub o.sample.position m) ∧
      deltaChain (some o.sample.position) os

/-- The spec's scroll-source preference, stated from its words: prefer
the first value, fall back to the second, then to the third.  Proved
equal to the source's `a || b || c` chain. -/
def preferChain (a b c : Rat) : Rat :=
  if a ≠ 0 then a else if b ≠ 0 then b else c

/-- Concrete DOM snapshot for the spec's scenario: every element's box
at viewport (top 100, left 50), document unscrolled, no client edges. -/
def envA : DomEnv :=
  { boxOf := fun _ => { top := 100, left := 50 }
    pageXOffset := 0, pageYOffset := 0
    docScrollTop := 0, docScrollLeft := 0
    bodyScrollTop := 0, bodyScrollLeft := 0
    docClientTop := 0, docClientLeft := 0
    bodyClientTop := 0, bodyClientLeft := 0
    scrollX := 0, scrollY := 0 }

/-- Concrete DOM snapshot in which the window-level scroll reads 0 while
the document root and body report nonzero scroll. -/
def envB : DomEnv :=
  { envA with docScrollTop := 7, bodyScrollTop := 3, docScrollLeft := 0, bodyScrollLeft := 4 }

/-- Reachable state with an element but no callbacks registered. -/
def sHalf : TrackerState :=
  (step initState (Action.setDomEl (some 1))).1

/-- Reachable freshly bound state: element 1 and callback set 7. -/
def sBound : TrackerState :=
  (step sHalf (Action.setCallbacks (some 7))).1

/-- First scenario event: viewport (60, 110). -/
def evA1 : RawEvent := { clientX := 60, clientY := 110 }

/-- Second scenario event: viewport (70, 130). -/
def evA2 : RawEvent := { clientX := 70, clientY := 130 }

/-- A concrete two-event pointer trace on element 1. -/
def psA : List PtrAct :=
  [{ kind := .move, target := 1, env := envA, ev := evA1 },
   { kind := .move, target := 1, env := envA, ev := evA2 }]

/-- A concrete two-event pointer trace on element 2. -/
def psB : List PtrAct :=
  [{ kind := .down, target := 2, env := envA, ev := evA1 },
   { kind := .up, target := 2, env := envA, ev := evA2 }]

theorem filter_goodListeners (g cb el : Nat) :
    (goodListeners g cb el).filter (fun l => l.gen ≠ g) = [] := by
  simp [goodListeners, allKinds]

theorem cleanupStep_of_good {s : TrackerState} (h : goodState s) :
    (cleanupStep s).listeners = [] := by
  unfold goodState at h
  have hl : (cleanupStep s).listeners = s.listeners.filter (fun l => l.gen ≠ s.gen) := rfl
  rcases hc : s.cbs with _ | cb <;> rcases hd : s.domEl with _ | el <;>
      rw [hc, hd] at h <;> rw [hl, h]
  · rfl
  · rfl
  · rfl
  · exact filter_goodListeners s.gen cb el

theorem goodState_attachStep {c : TrackerState} (h : c.listeners = []) :
    goodState (attachStep c) := by
  rcases hc : c.cbs with _ | cb <;> rcases hd : c.domEl with _ | el <;>
    simp [goodState, attachStep, hc, hd, h]

theorem goodState_effectStep {s : TrackerState}
    (h : (cleanupStep s).listeners = []) : goodState (effectStep s) :=
  goodState_attachStep h

theorem goodState_lastPosition {s : TrackerState} (p : Option MouseCoords)
    (h : goodState s) : goodState { s with lastPosition := p } := by
  unfold goodState at h ⊢
  exact h

theorem handleEvent_fst (s : TrackerState) (k : EventKind) (t : Nat) (env : DomEnv)
    (e : RawEvent) :
    (handleEvent s k t env e).1 =
      { s with lastPosition := (s.listeners.foldl (fireListener k t env e)
          (s.lastPosition, [])).1 } := rfl

/-- Every reachable state satisfies the listener invariant. -/
theorem reachable_goodState {s : TrackerState} (h : Reachable s) : goodState s := by
  induction h with
  | start => simp [goodState, initState]
  | next a _ ih =>
    rename_i s0 _
    cases a with
    | setDomEl el =>
      by_cases hel : el = s0.domEl
      · simpa [step, hel] using ih
      · have hcl : (cleanupStep { s0 with domEl := el }).listeners = [] := by
          have := cleanupStep_of_good ih
          simpa [cleanupStep] using this
        simpa [step, hel] using goodState_effectStep hcl
    | setCallbacks c =>
      by_cases hc : c = s0.cbs
      · simpa [step, hc] using ih
      · have hcl : (cleanupStep { s0 with cbs := c }).listeners = [] := by
          have := cleanupStep_of_good ih
          simpa [cleanupStep] using this
        simpa [step, hc] using goodState_effectStep hcl
    | ptr k target env e =>
      have : (step s0 (.ptr k target env e)).1 =
          { s0 with lastPosition := (s0.listeners.foldl (fireListener k target env e)
            (s0.lastPosition, [])).1 } := rfl
      rw [this]
      exact goodState_lastPosition _ ih

/-- Dispatch on a well-formed bound listener set: exactly one listener
matches, so the event on the bound element produces exactly one callback
invocation, with the sample computed from the pre-event `lastPosition`;
an event on any other element produces none. -/
theorem handleEvent_good (s : TrackerState) (cb el : Nat) (k : EventKind) (t : Nat)
    (env : DomEnv) (e : RawEvent) (h : s.listeners = goodListeners s.gen cb el) :
    handleEvent s k t env e =
      if t = el then
        ({ s with lastPosition := some (mouseEventToCoords env (some el) e) },
         [{ cb := cb, kind := k, sample := parseMousePosition env (some el) e s.lastPosition }])
      else (s, []) := by
  have hstep : handleEvent s k t env e =
      ({ s with lastPosition :=
          (s.listeners.foldl (fireListener k t env e) (s.lastPosition, [])).1 },
       (s.listeners.foldl (fireListener k t env e) (s.lastPosition, [])).2) := rfl
  by_cases ht : t = el
  · subst ht
    have hfold : s.listeners.foldl (fireListener k t env e) (s.lastPosition, []) =
        (some (mouseEventToCoords env (some t) e),
         [{ cb := cb, kind := k, sample := parseMousePosition env (some t) e s.lastPosition }]) := by
      rw [h]
      cases k <;> simp [goodListeners, allKinds, List.foldl, fireListener]
    rw [hstep, hfold]
    simp
  · have ht' : el ≠ t := fun hh => ht hh.symm
    have hfold : s.listeners.foldl (fireListener k t env e) (s.lastPosition, []) =
        (s.lastPosition, []) := by
      rw [h]
      cases k <;> simp [goodListeners, allKinds, List.foldl, fireListener, ht']
    rw [hstep, hfold]
    simp [ht]

/-- Closed form of `parseMousePosition`: position is the mapped
coordinate, delta is the difference against the tracked position when
present. -/
theorem parseMousePosition_eq (env : DomEnv) (domEl : Option Nat) (e : RawEvent)
    (q : Option MouseCoords) :
    parseMousePosition env domEl e q =
      { position := mouseEventToCoords env domEl e,
        delta := q.map (fun m => coordSub (mouseEventToCoords env domEl e) m) } := by
  cases q <;> rfl

theorem ptrActions_cons (p : PtrAct) (ps : List PtrAct) :
    ptrActions (p :: ps) = .ptr p.kind p.target p.env p.ev :: ptrActions ps := rfl

theorem run_cons (s : TrackerState) (a : Action) (as : List Action) :
    run s (a :: as) =
      ((run (step s a).1 as).1, (step s a).2 ++ (run (step s a).1 as).2) := rfl

/-- Running a pointer trace from a well-formed bound state produces
exactly the expected invocation trace and final last position. -/
theorem run_ptr (cb el : Nat) : ∀ (ps : List PtrAct) (s : TrackerState),
    s.cbs = some cb → s.domEl = some el →
    s.listeners = goodListeners s.gen cb el →
    run s (ptrActions ps) =
      ({ s with lastPosition := expectedLast el s.lastPosition ps },
       expectedOuts cb el s.lastPosition ps) := by
  intro ps
  induction ps with
  | nil =>
    intro s _ _ _
    simp [run, ptrActions, expectedLast, expectedOuts]
  | cons p ps ih =>
    intro s h1 h2 h3
    have hstep : step s (.ptr p.kind p.target p.env p.ev) =
        handleEvent s p.kind p.target p.env p.ev := rfl
    have hgood := handleEvent_good s cb el p.kind p.target p.env p.ev h3
    rw [ptrActions_cons, run_cons, hstep, hgood]
    by_cases hp : p.target = el
    · rw [if_pos hp]
      have hrec := ih { s with lastPosition := some (mouseEventToCoords p.env (some el) p.ev) }
        h1 h2 h3
      rw [hrec]
      simp only [expectedOuts, expectedLast, hp, if_pos, posOf,
        parseMousePosition_eq, List.singleton_append]
    · rw [if_neg hp]
      have hrec := ih s h1 h2 h3
      rw [hrec]
      simp only [expectedOuts, expectedLast, hp, if_neg, not_false_iff, List.nil_append]

/-- Running a pointer trace from a state with no listeners changes
nothing and produces no invocations. -/
theorem run_ptr_noListeners : ∀ (ps : List PtrAct) (s : TrackerState),
    s.listeners = [] → run s (ptrActions ps) = (s, []) := by
  intro ps
  induction ps with
  | nil => intro s _; simp [run, ptrActions]
  | cons p ps ih =>
    intro s h
    have hstep : step s (.ptr p.kind p.target p.env p.ev) =
        handleEvent s p.kind p.target p.env p.ev := rfl
    have hpair : handleEvent s p.kind p.target p.env p.ev =
        ({ s with lastPosition :=
            (s.listeners.foldl (fireListener p.kind p.target p.env p.ev) (s.lastPosition, [])).1 },
         (s.listeners.foldl (fireListener p.kind p.target p.env p.ev) (s.lastPosition, [])).2) := rfl
    have hfold : s.listeners.foldl (fireListener p.kind p.target p.env p.ev)
        (s.lastPosition, []) = (s.lastPosition, []) := by
      rw [h]
      rfl
    have hnone : handleEvent s p.kind p.target p.env p.ev = (s, []) := by
      rw [hpair, hfold]
    rw [ptrActions_cons, run_cons, hstep, hnone, ih s h]
    rfl

/-- Expected invocation traces always form a delta chain. -/
theorem deltaChain_expectedOuts (cb el : Nat) :
    ∀ (ps : List PtrAct) (q : Option MouseCoords),
      deltaChain q (expectedOuts cb el q ps) := by
  intro ps
  induction ps with
  | nil => intro q; simp [expectedOuts, deltaChain]
  | cons p ps ih =>
    intro q
    by_cases hp : p.target = el
    · simp only [expectedOuts, hp, if_pos, deltaChain]
      exact ⟨by cases q <;> simp [coordSub], ih (some (posOf el p))⟩
    · simp only [expectedOuts, hp, if_neg, not_false_iff]
      exact ih q

/-- In a delta chain, a sample's delta is present exactly when it is
not the first sample measured against an absent start. -/
theorem deltaChain_isSome {q : Option MouseCoords} :
    ∀ {os : List Output}, deltaChain q os →
      ∀ (i : Nat) (o : Output), os.get? i = some o →
        (o.sample.delta).isSome = (q.isSome || decide (i ≠ 0)) := by
  intro os
  induction os generalizing q with
  | nil => intro _ i o h; simp [List.get?] at h
  | cons o0 os ih =>
    intro hchain i o h
    match i with
    | 0 =>
      have ho : o = o0 := by simpa [List.get?] using h.symm
      subst ho
      rw [hchain.1]
      cases q <;> simp
    | Nat.succ j =>
      have hj : os.get? j = some o := by simpa [List.get?] using h
      have := ih hchain.2 j o hj
      simpa using this

/-- Lengths: when every stimulus targets the bound element, every
stimulus produces exactly one invocation. -/
theorem expectedOuts_length (cb el : Nat) :
    ∀ (ps : List PtrAct) (q : Option MouseCoords),
      (∀ p ∈ ps, p.target = el) →
      (expectedOuts cb el q ps).length = ps.length := by
  intro ps
  induction ps with
  | nil => intro q _; rfl
  | cons p ps ih =>
    intro q hall
    have hp : p.target = el := hall p (List.mem_cons_self p ps)
    simp only [expectedOuts, hp, if_pos, List.length_cons]
    rw [ih (some (posOf el p)) (fun x hx => hall x (List.mem_cons_of_mem p hx))]

/-- Dispatch with no listeners attached: no state change, no
invocation. -/
theorem handleEvent_noListeners (s : TrackerState) (k : EventKind) (t : Nat)
    (env : DomEnv) (e : RawEvent) (h : s.listeners = []) :
    handleEvent s k t env e = (s, []) := by
  have hpair : handleEvent s k t env e =
      ({ s with lastPosition :=
          (s.listeners.foldl (fireListener k t env e) (s.lastPosition, [])).1 },
       (s.listeners.foldl (fireListener k t env e) (s.lastPosition, [])).2) := rfl
  have hfold : s.listeners.foldl (fireListener k t env e) (s.lastPosition, []) =
      (s.lastPosition, []) := by
    rw [h]
    rfl
  rw [hpair, hfold]

/-- Every effect re-run starts with an unset tracked position. -/
theorem effectStep_lastPosition (s : TrackerState) :
    (effectStep s).lastPosition = none := by
  unfold effectStep attachStep
  rcases hc : (cleanupStep s).cbs with _ | cb <;>
    rcases hd : (cleanupStep s).domEl with _ | el <;>
    simp [hc, hd]

/-- The source's `a || b || c` chain agrees with the spec's preference
chain. -/
theorem jsOr_preferChain (a b c : Rat) : jsOr a (jsOr b c) = preferChain a b c := by
  unfold jsOr preferChain
  by_cases ha : a = 0 <;> by_cases hb : b = 0 <;> simp [ha, hb]

theorem reachable_sHalf : Reachable sHalf :=
  Reachable.next (Action.setDomEl (some 1)) Reachable.start

theorem reachable_sBound : Reachable sBound :=
  Reachable.next (Action.setCallbacks (some 7)) reachable_sHalf

/-- In a reachable bound state the listeners are exactly the five of the
current generation. -/
theorem bound_listeners {s : TrackerState} {cb el : Nat} (hreach : Reachable s)
    (h1 : s.cbs = some cb) (h2 : s.domEl = some el) :
    s.listeners = goodListeners s.gen cb el := by
  have hg := reachable_goodState hreach
  unfold goodState at hg
  rw [h1, h2] at hg
  exact hg

/-- In a reachable unbound state no listeners are attached. -/
theorem unbound_listeners {s : TrackerState} (hreach : Reachable s)
    (h : s.domEl = none ∨ s.cbs = none) : s.listeners = [] := by
  have hg := reachable_goodState hreach
  unfold goodState at hg
  rcases h with h | h
  · rcases hc : s.cbs with _ | cb <;> rw [hc, h] at hg <;> exact hg
  · rcases hd : s.domEl with _ | el <;> rw [h, hd] at hg <;> exact hg

/-- Concrete evaluation: in `envA` every element resolves to offset
(top 100, left 50). -/
theorem getOffset_envA (el : Nat) : getOffset envA (some el) = { top := 100, left := 50 } := by
  simp [getOffset, envA, jsOr, jsRound]
  norm_num

/-- Concrete evaluation: the first scenario event maps to (10, 10). -/
theorem coords_envA1 (el : Nat) :
    mouseEventToCoords envA (some el) evA1 = { x := 10, y := 10 } := by
  simp only [mouseEventToCoords, getOffset_envA]
  norm_num [envA, evA1]

/-- Concrete evaluation: the second scenario event maps to (20, 30). -/
theorem coords_envA2 (el : Nat) :
    mouseEventToCoords envA (some el) evA2 = { x := 20, y := 30 } := by
  simp only [mouseEventToCoords, getOffset_envA]
  norm_num [envA, evA2]

/-- C1: for every sequence of pointer events delivered while the tracker
is Bound (a reachable bound state at the start of its session, with no
tracked position yet), every event is dispatched, the first dispatched
sample's delta is absent, and every subsequent sample's delta equals the
current element-relative position minus the previous sample's position,
componentwise and exactly (`deltaChain none`). -/
theorem C1_first_delta_absent_then_exact_differences (s : TrackerState) (cb el : Nat)
    (ps : List PtrAct) (hreach : Reachable s) (h1 : s.cbs = some cb)
    (h2 : s.domEl = some el) (hfresh : s.lastPosition = none)
    (hall : ∀ p ∈ ps, p.target = el) :
    ((run s (ptrActions ps)).2).length = ps.length ∧
      deltaChain none (run s (ptrActions ps)).2 := by
  have hl := bound_listeners hreach h1 h2
  have hrun := run_ptr cb el ps s h1 h2 hl
  rw [hrun]
  constructor
  · exact expectedOuts_length cb el ps s.lastPosition hall
  · rw [show ({ s with lastPosition := expectedLast el s.lastPosition ps },
        expectedOuts cb el s.lastPosition ps).2 = expectedOuts cb el s.lastPosition ps from rfl,
      hfresh]
    exact deltaChain_expectedOuts cb el ps none

/-- Witness for C1: the freshly bound state `sBound` and the concrete
two-event trace `psA`. -/
theorem C1_first_delta_absent_then_exact_differences_witness :
    ((run sBound (ptrActions psA)).2).length = psA.length ∧
      deltaChain none (run sBound (ptrActions psA)).2 :=
  C1_first_delta_absent_then_exact_differences sBound 7 1 psA reachable_sBound
    rfl rfl rfl (by decide)

/-- C2: after any change of the bound element or of the callback set on
a reachable state, the Session State is reset (no tracked position), and
on any subsequent pointer trace a dispatched sample's delta is present
exactly when at least one sample was dispatched before it since the
rebind (its index in the post-rebind trace is nonzero). -/
theorem C2_delta_present_iff_prior_sample (s : TrackerState) (a : Action)
    (ps : List PtrAct) (hreach : Reachable s)
    (hchange : (∃ el, a = Action.setDomEl el ∧ el ≠ s.domEl) ∨
               (∃ c, a = Action.setCallbacks c ∧ c ≠ s.cbs)) :
    (step s a).1.lastPosition = none ∧
      ∀ (i : Nat) (o : Output),
        ((run (step s a).1 (ptrActions ps)).2).get? i = some o →
          (o.sample.delta.isSome ↔ i ≠ 0) := by
  have hs1 : Reachable (step s a).1 := Reachable.next a hreach
  have hlast : (step s a).1.lastPosition = none := by
    rcases hchange with ⟨el, ha, hne⟩ | ⟨c, ha, hne⟩
    · subst ha
      rw [show (step s (Action.setDomEl el)).1 =
          if el = s.domEl then s else effectStep { s with domEl := el } from rfl,
        if_neg hne]
      exact effectStep_lastPosition _
    · subst ha
      rw [show (step s (Action.setCallbacks c)).1 =
          if c = s.cbs then s else effectStep { s with cbs := c } from rfl,
        if_neg hne]
      exact effectStep_lastPosition _
  refine ⟨hlast, ?_⟩
  intro i o ho
  rcases hc : (step s a).1.cbs with _ | cb
  · rw [run_ptr_noListeners ps _ (unbound_listeners hs1 (Or.inr hc))] at ho
    simp [List.get?] at ho
  · rcases hd : (step s a).1.domEl with _ | el
    · rw [run_ptr_noListeners ps _ (unbound_listeners hs1 (Or.inl hd))] at ho
      simp [List.get?] at ho
    · have hl := bound_listeners hs1 hc hd
      rw [run_ptr cb el ps _ hc hd hl] at ho
      rw [show ({ (step s a).1 with
            lastPosition := expectedLast el (step s a).1.lastPosition ps },
          expectedOuts cb el (step s a).1.lastPosition ps).2 =
          expectedOuts cb el (step s a).1.lastPosition ps from rfl, hlast] at ho
      have hval := deltaChain_isSome (deltaChain_expectedOuts cb el ps none) i o ho
      simp only [Option.isSome_none, Bool.false_or] at hval
      simp [hval]

/-- Witness for C2: rebinding `sBound` to element 2 and running the
concrete trace `psB` checks the reset, and the present-iff-prior rule at
index 1 of the post-rebind trace. -/
theorem C2_delta_present_iff_prior_sample_witness :
    (step sBound (Action.setDomEl (some 2))).1.lastPosition = none ∧
      (({ cb := 7, kind := .up,
          sample := { position := { x := 20, y := 30 },
                      delta := some { x := 10, y := 20 } } } : Output).sample.delta.isSome ↔
        (1 : Nat) ≠ 0) := by
  have hthm := C2_delta_present_iff_prior_sample sBound (Action.setDomEl (some 2)) psB
    reachable_sBound (Or.inl ⟨some 2, rfl, by decide⟩)
  refine ⟨hthm.1, hthm.2 1 _ ?_⟩
  have hreach2 : Reachable (step sBound (Action.setDomEl (some 2))).1 :=
    Reachable.next (Action.setDomEl (some 2)) reachable_sBound
  have hrun := run_ptr 7 2 psB (step sBound (Action.setDomEl (some 2))).1 rfl rfl
    (bound_listeners hreach2 rfl rfl)
  rw [hrun, show (step sBound (Action.setDomEl (some 2))).1.lastPosition = none from rfl]
  simp [expectedOuts, psB, posOf, coords_envA1, coords_envA2, coordSub, List.get?]
  norm_num

/-- C3: the Coordinate Mapper returns the event's viewport coordinates
minus the element's resolved offset plus the window scroll, in x and y.
Immediate from the source's definition. -/
theorem C3_coordinate_mapper (env : DomEnv) (el : Nat) (e : RawEvent) :
    mouseEventToCoords env (some el) e =
      { x := e.clientX - ((getOffset env (some el)).left : Rat) + env.scrollX,
        y := e.clientY - ((getOffset env (some el)).top : Rat) + env.scrollY } := rfl

/-- C4: the Offset Resolver with no element returns (top 0, left 0) for
every document scroll state. -/
theorem C4_offset_without_element (env : DomEnv) :
    getOffset env none = { top := 0, left := 0 } := rfl

/-- C5: for a supplied element the Offset Resolver returns the bounding
box corner plus the preferred scroll offset (window, then document root,
then body) minus the client-edge offset (document root, then body, then
0), each rounded to the nearest integer. -/
theorem C5_offset_with_element (env : DomEnv) (el : Nat) :
    getOffset env (some el) =
      { top := jsRound ((env.boxOf el).top
          + preferChain env.pageYOffset env.docScrollTop env.bodyScrollTop
          - preferChain env.docClientTop env.bodyClientTop 0),
        left := jsRound ((env.boxOf el).left
          + preferChain env.pageXOffset env.docScrollLeft env.bodyScrollLeft
          - preferChain env.docClientLeft env.bodyClientLeft 0) } := by
  simp [getOffset, jsOr_preferChain]

/-- C6: on each of the five event kinds in a reachable bound state, the
handler dispatches exactly one invocation of the matching callback whose
sample has the mapped position and, as delta, the difference against the
Session State when set (absent otherwise), and then sets the Session
State to that sample's position. -/
theorem C6_handler_dispatch (s : TrackerState) (cb el : Nat) (k : EventKind)
    (env : DomEnv) (e : RawEvent) (hreach : Reachable s)
    (h1 : s.cbs = some cb) (h2 : s.domEl = some el) :
    step s (Action.ptr k el env e) =
      ({ s with lastPosition := some (mouseEventToCoords env (some el) e) },
       [{ cb := cb, kind := k,
          sample := { position := mouseEventToCoords env (some el) e,
                      delta := s.lastPosition.map
                        (fun m => coordSub (mouseEventToCoords env (some el) e) m) } }]) := by
  have hl := bound_listeners hreach h1 h2
  have hg := handleEvent_good s cb el k el env e hl
  rw [show step s (Action.ptr k el env e) = handleEvent s k el env e from rfl, hg,
    if_pos rfl, parseMousePosition_eq]

/-- Witness for C6: a `mousedown` on the freshly bound state `sBound`. -/
theorem C6_handler_dispatch_witness :
    step sBound (Action.ptr .down 1 envA evA1) =
      ({ sBound with lastPosition := some { x := 10, y := 10 } },
       [{ cb := 7, kind := .down,
          sample := { position := { x := 10, y := 10 }, delta := none } }]) := by
  rw [C6_handler_dispatch sBound 7 1 .down envA evA1 reachable_sBound rfl rfl,
    coords_envA1, show sBound.lastPosition = none from rfl]
  simp

/-- C7: in every reachable state missing the element or the callback set
(Unbound), no native listeners are attached and a pointer event changes
nothing and invokes no callback; the step is total, so no error is
signaled. -/
theorem C7_unbound_inert (s : TrackerState) (hreach : Reachable s)
    (h : s.domEl = none ∨ s.cbs = none) :
    s.listeners = [] ∧
      ∀ (k : EventKind) (t : Nat) (env : DomEnv) (e : RawEvent),
        step s (Action.ptr k t env e) = (s, []) := by
  have hl := unbound_listeners hreach h
  exact ⟨hl, fun k t env e => handleEvent_noListeners s k t env e hl⟩

/-- Witness for C7: the state `sHalf` has an element but no callback
set; a move event on it is inert. -/
theorem C7_unbound_inert_witness :
    sHalf.listeners = [] ∧ step sHalf (Action.ptr .move 1 envA evA1) = (sHalf, []) :=
  ⟨(C7_unbound_inert sHalf reachable_sHalf (Or.inr rfl)).1,
   (C7_unbound_inert sHalf reachable_sHalf (Or.inr rfl)).2 .move 1 envA evA1⟩

/-- C8: in every reachable state, (i) while Bound exactly one listener
per kind — five in total, all of the current generation, on the bound
element, for the bound callback set — is attached; (ii) and (iii) any
binding change factors as removing all old listeners (leaving none)
before attaching the new ones; (iv) one native event produces at most
one dispatch. -/
theorem C8_listener_discipline (s : TrackerState) (hreach : Reachable s) :
    (∀ cb el, s.cbs = some cb → s.domEl = some el →
      s.listeners.length = 5 ∧
      (∀ k : EventKind, (s.listeners.filter (fun l => l.kind = k)).length = 1) ∧
      (∀ l ∈ s.listeners, l.el = el ∧ l.cb = cb ∧ l.gen = s.gen)) ∧
    (∀ el2, el2 ≠ s.domEl →
      (step s (Action.setDomEl el2)).1 = attachStep (cleanupStep { s with domEl := el2 }) ∧
      (cleanupStep { s with domEl := el2 }).listeners = []) ∧
    (∀ c2, c2 ≠ s.cbs →
      (step s (Action.setCallbacks c2)).1 = attachStep (cleanupStep { s with cbs := c2 }) ∧
      (cleanupStep { s with cbs := c2 }).listeners = []) ∧
    (∀ (k : EventKind) (t : Nat) (env : DomEnv) (e : RawEvent),
      ((step s (Action.ptr k t env e)).2).length ≤ 1) := by
  refine ⟨?_, ?_, ?_, ?_⟩
  · intro cb el h1 h2
    have hl := bound_listeners hreach h1 h2
    rw [hl]
    refine ⟨rfl, ?_, ?_⟩
    · intro k
      cases k <;> simp [goodListeners, allKinds, List.filter]
    · intro l hm
      simp only [goodListeners, allKinds, List.map, List.mem_cons,
        List.not_mem_nil, or_false] at hm
      rcases hm with h | h | h | h | h <;> subst h <;> exact ⟨rfl, rfl, rfl⟩
  · intro el2 hne
    refine ⟨?_, ?_⟩
    · rw [show (step s (Action.setDomEl el2)).1 =
          if el2 = s.domEl then s else effectStep { s with domEl := el2 } from rfl,
        if_neg hne]
      rfl
    · rw [show (cleanupStep { s with domEl := el2 }).listeners =
          (cleanupStep s).listeners from rfl]
      exact cleanupStep_of_good (reachable_goodState hreach)
  · intro c2 hne
    refine ⟨?_, ?_⟩
    · rw [show (step s (Action.setCallbacks c2)).1 =
          if c2 = s.cbs then s else effectStep { s with cbs := c2 } from rfl,
        if_neg hne]
      rfl
    · rw [show (cleanupStep { s with cbs := c2 }).listeners =
          (cleanupStep s).listeners from rfl]
      exact cleanupStep_of_good (reachable_goodState hreach)
  · intro k t env e
    rcases hc : s.cbs with _ | cb
    · rw [show (step s (Action.ptr k t env e)).2 = (handleEvent s k t env e).2 from rfl,
        handleEvent_noListeners s k t env e (unbound_listeners hreach (Or.inr hc))]
      simp
    · rcases hd : s.domEl with _ | el
      · rw [show (step s (Action.ptr k t env e)).2 = (handleEvent s k t env e).2 from rfl,
          handleEvent_noListeners s k t env e (unbound_listeners hreach (Or.inl hd))]
        simp
      · have hg := handleEvent_good s cb el k t env e (bound_listeners hreach hc hd)
        rw [show (step s (Action.ptr k t env e)).2 = (handleEvent s k t env e).2 from rfl, hg]
        by_cases ht : t = el <;> simp [ht]

/-- Witness for C8: the bound state `sBound` has five listeners, a
rebind to element 2 passes through the empty-listener state, and a move
event dispatches at most once. -/
theorem C8_listener_discipline_witness :
    sBound.listeners.length = 5 ∧
    (cleanupStep { sBound with domEl := some 2 }).listeners = [] ∧
    ((step sBound (Action.ptr .move 1 envA evA1)).2).length ≤ 1 :=
  ⟨((C8_listener_discipline sBound reachable_sBound).1 7 1 rfl rfl).1,
   ((C8_listener_discipline sBound reachable_sBound).2.1 (some 2) (by decide)).2,
   (C8_listener_discipline sBound reachable_sBound).2.2.2 .move 1 envA evA1⟩

/-- C9: for an element at document offset (left 50, top 100) with the
document unscrolled, a first event at viewport (60, 110) yields position
(10, 10) with delta absent, and the next event of the same session at
viewport (70, 130) yields position (20, 30) with delta (10, 20). -/
theorem C9_scenario :
    (run initState
      [Action.setDomEl (some 1), Action.setCallbacks (some 7),
       Action.ptr .move 1 envA evA1,
       Action.ptr .move 1 envA evA2]).2 =
      [{ cb := 7, kind := .move,
         sample := { position := { x := 10, y := 10 }, delta := none } },
       { cb := 7, kind := .move,
         sample := { position := { x := 20, y := 30 },
                     delta := some { x := 10, y := 20 } } }] := by
  have hrun := run_ptr 7 1 psA sBound rfl rfl (bound_listeners reachable_sBound rfl rfl)
  rw [show (run initState
      [Action.setDomEl (some 1), Action.setCallbacks (some 7),
       Action.ptr .move 1 envA evA1, Action.ptr .move 1 envA evA2]).2 =
      (run sBound (ptrActions psA)).2 from rfl,
    hrun, show sBound.lastPosition = none from rfl]
  simp [expectedOuts, psA, posOf, coords_envA1, coords_envA2, coordSub]
  norm_num

/-- C10: the scroll fallback chain is truthiness-driven: when
`window.pageYOffset` (resp. `pageXOffset`) is 0, the document-root value
is used, and when that is also 0 the body value is used; the client-edge
chain selects the same way.  In particular a state whose window-level
scroll is a valid 0 makes the resolver use the nonzero document-root or
body value. -/
theorem C10_truthiness_fallback (env : DomEnv) (el : Nat)
    (hy : env.pageYOffset = 0) (hx : env.pageXOffset = 0) :
    getOffset env (some el) =
      { top := jsRound ((env.boxOf el).top + jsOr env.docScrollTop env.bodyScrollTop
          - jsOr env.docClientTop (jsOr env.bodyClientTop 0)),
        left := jsRound ((env.boxOf el).left + jsOr env.docScrollLeft env.bodyScrollLeft
          - jsOr env.docClientLeft (jsOr env.bodyClientLeft 0)) } ∧
    (env.docScrollTop ≠ 0 →
      (getOffset env (some el)).top =
        jsRound ((env.boxOf el).top + env.docScrollTop
          - jsOr env.docClientTop (jsOr env.bodyClientTop 0))) ∧
    (env.docScrollTop = 0 →
      (getOffset env (some el)).top =
        jsRound ((env.boxOf el).top + env.bodyScrollTop
          - jsOr env.docClientTop (jsOr env.bodyClientTop 0))) ∧
    (env.docClientTop = 0 →
      (getOffset env (some el)).top =
        jsRound ((env.boxOf el).top + jsOr env.docScrollTop env.bodyScrollTop
          - jsOr env.bodyClientTop 0)) := by
  refine ⟨?_, ?_, ?_, ?_⟩
  · simp [getOffset, jsOr, hy, hx]
  · intro hd
    simp [getOffset, jsOr, hy, hd]
  · intro hd
    simp [getOffset, jsOr, hy, hd]
  · intro hct
    simp [getOffset, jsOr, hy, hct]

/-- Witness for C10: with window scroll 0 but document-root scroll 7,
the resolver's top uses 7 -- box top 100 resolves to 107. -/
theorem C10_truthiness_fallback_witness :
    envB.pageYOffset = 0 ∧ envB.docScrollTop = 7 ∧
      (getOffset envB (some 1)).top = 107 :=
  ⟨rfl, rfl, by
    have h := (C10_truthiness_fallback envB 1 rfl rfl).2.1 (by norm_num [envB, envA])
    rw [h]
    simp [envB, envA, jsOr, jsRound]
    norm_num⟩

end MouseInput
